import Mathlib

/-!
Verification of the `drgn.helpers.linux.mm` address-translation and
page-state-decoding core (file `src/drgn/helpers/linux/mm.py`).

The Python helpers operate on a target kernel image through two external
capabilities: a metadata accessor (`prog["name"]`, raising `KeyError` when
the symbol is absent) and a typed memory reader (descriptor field reads).
We shallowly embed them here:

* A page descriptor (`struct page`) is a record of the three fields the
  helpers consume: the `flags` word, the `compound_head` word, and the
  `compound_order` field (only meaningful one descriptor past a head).
* Target memory is a total map from descriptor address to descriptor
  contents (`Prog.mem`); `page[1]` in Python is pointer arithmetic with
  stride `sizeof(struct page)`, embedded as `addr + Prog.stride`.
* Metadata that `prog[...]` may fail to resolve is an `Option` field
  (`pgHead`, `pgActive`, `vmemmap`, `contig`); a `none` models the
  `KeyError` path, which functions either catch (the generated flag
  getters) or propagate (`Option.none` results of `PageHead` etc.).
* Machine integers (`unsigned long`, `phys_addr_t`, `void *`) are 64-bit;
  arithmetic that an `Object` of those types performs is taken modulo
  `U64 = 2 ^ 64`.
-/

set_option autoImplicit false

namespace DrgnMM

/-- Width of the 64-bit integer types (`unsigned long`, `phys_addr_t`,
`void *`) used by the helpers. -/
def U64 : Nat := 2 ^ 64

/-- The three fields of `struct page` that the helpers read. -/
structure Page where
  flags : Nat
  compound_head : Nat
  compound_order : Nat
  deriving DecidableEq, Repr

/-- A target program session: target memory (descriptor contents at each
address), architecture constants, and the metadata the helpers look up by
name. `Option.none` in a metadata field models a `KeyError` from
`prog["..."]`. `faulted` marks addresses whose dereference faults; the
helper functions below never consult it (reads of descriptor words are
modelled by `mem`), it exists to state that the page enumerator performs
no reads. -/
structure Prog where
  mem : Nat → Page
  faulted : Nat → Bool
  stride : Nat
  pageShift : Nat
  pageSize : Nat
  directMappingOffset : Nat
  pgHead : Option Nat
  pgActive : Option Nat
  vmemmap : Option Nat
  contig : Option (Nat × Nat)
  minLowPfn : Nat
  maxPfn : Nat

/-- `PFN_PHYS`: `Object(prog, "phys_addr_t", pfn) << prog["PAGE_SHIFT"]`.
The value is truncated to `phys_addr_t` (64 bits) and the shift result is
again 64-bit. -/
def PFN_PHYS (p : Prog) (pfn : Nat) : Nat :=
  ((pfn % U64) <<< p.pageShift) % U64

/-- `PHYS_PFN`: `Object(prog, "unsigned long", addr) >> prog["PAGE_SHIFT"]`. -/
def PHYS_PFN (p : Prog) (addr : Nat) : Nat :=
  (addr % U64) >>> p.pageShift

/-- `phys_to_virt`: `Object(prog, "void *", addr + direct_mapping_offset)`. -/
def phys_to_virt (p : Prog) (addr : Nat) : Nat :=
  (addr + p.directMappingOffset) % U64

/-- `virt_to_phys`: `Object(prog, "unsigned long", addr - direct_mapping_offset)`;
the Python subtraction is exact (may go negative) and the `unsigned long`
conversion reduces it modulo `2 ^ 64`. -/
def virt_to_phys (p : Prog) (addr : Nat) : Nat :=
  (((addr : Int) - (p.directMappingOffset : Int)) % (U64 : Int)).toNat

/-- `PageActive` (representative of the generated per-flag getters): looks
up the `PG_active` bit number, returns `false` on `KeyError`, else tests
`page.flags & (1 << flag)`. -/
def PageActive (p : Prog) (page : Nat) : Bool :=
  match p.pgActive with
  | none => false
  | some flag => (p.mem page).flags &&& (1 <<< flag) != 0

/-- `_page_is_fake_head`: reads `page[1].compound_head` (the compound-head
word of the descriptor one stride past `page`) and returns
`bool(head & 1) and (head - 1) != page.value_()`. -/
def _page_is_fake_head (p : Prog) (page : Nat) : Bool :=
  let head := (p.mem (page + p.stride)).compound_head
  (head &&& 1 == 1) && (head - 1 != page)

/-- `PageHead`: `page.flags & (1 << prog["PG_head"]) and not
_page_is_fake_head(page)`; the `PG_head` lookup raises `KeyError`
(`none`) when the flag is absent from the target metadata. -/
def PageHead (p : Prog) (page : Nat) : Option Bool :=
  match p.pgHead with
  | none => none
  | some flag =>
    some (((p.mem page).flags &&& (1 <<< flag) != 0) && !(_page_is_fake_head p page))

/-- `PageTail`: returns `true` when the descriptor's own compound-head word
is tagged; otherwise looks up `PG_head` (raising `KeyError` when absent)
and, when that flag is set, returns `_page_is_fake_head(page)`. -/
def PageTail (p : Prog) (page : Nat) : Option Bool :=
  if (p.mem page).compound_head &&& 1 == 1 then some true
  else match p.pgHead with
    | none => none
    | some flag =>
      if (p.mem page).flags &&& (1 <<< flag) != 0 then some (_page_is_fake_head p page)
      else some false

/-- `PageCompound`: `(page.flags & (1 << prog["PG_head"])) or
(page.compound_head & 1)`; the `PG_head` lookup is evaluated first, so an
absent flag always raises `KeyError` (`none`). -/
def PageCompound (p : Prog) (page : Nat) : Option Bool :=
  match p.pgHead with
  | none => none
  | some flag =>
    some (((p.mem page).flags &&& (1 <<< flag) != 0) ||
      ((p.mem page).compound_head &&& 1 == 1))

/-- `compound_head`: if the descriptor's own compound-head word is tagged,
return `head - 1`; otherwise, when the `PG_head` flag is set (the lookup
raising `KeyError` when absent), re-read `page[1].compound_head` and
return `head - 1` if that word is tagged; otherwise return `page`. -/
def compound_head (p : Prog) (page : Nat) : Option Nat :=
  let head := (p.mem page).compound_head
  if head &&& 1 == 1 then some (head - 1)
  else match p.pgHead with
    | none => none
    | some flag =>
      if (p.mem page).flags &&& (1 <<< flag) != 0 then
        let head2 := (p.mem (page + p.stride)).compound_head
        if head2 &&& 1 == 1 then some (head2 - 1) else some page
      else some page

/-- `compound_order`: `0` unless `PageHead(page)` (whose `KeyError`
propagates), else `page[1].compound_order` cast to `unsigned int`. -/
def compound_order (p : Prog) (page : Nat) : Option Nat :=
  match PageHead p page with
  | none => none
  | some false => some 0
  | some true => some ((p.mem (page + p.stride)).compound_order % 2 ^ 32)

/-- `compound_nr`: `1` unless `PageHead(page)` (whose `KeyError`
propagates), else `Object(prog, "unsigned long", 1) << page[1].compound_order`. -/
def compound_nr (p : Prog) (page : Nat) : Option Nat :=
  match PageHead p page with
  | none => none
  | some false => some 1
  | some true => some ((1 <<< (p.mem (page + p.stride)).compound_order) % U64)

/-- `page_size`: `prog["PAGE_SIZE"] << compound_order(page)` (an `unsigned
long` shift); `KeyError` from `compound_order` propagates. -/
def page_size (p : Prog) (page : Nat) : Option Nat :=
  match compound_order p page with
  | none => none
  | some o => some ((p.pageSize <<< o) % U64)

/-- The error outcomes of page-array base resolution. The source only ever
produces `metadataAbsent` (a `KeyError` from a metadata lookup);
`unsupportedMemoryModel` is the distinct error class the spec postulates
for the sparse non-vmemmap layout, which the code does not raise. -/
inductive ResolveError where
  | metadataAbsent
  | unsupportedMemoryModel
  deriving DecidableEq, Repr

/-- The per-session mutable cache (`prog.cache`): the resolved address of
the descriptor for PFN 0, once computed. -/
structure Session where
  cachePage0 : Option Nat
  deriving DecidableEq, Repr

/-- `_page0`: returns the cached `page0` when present; otherwise tries
`prog["vmemmap"]`, on `KeyError` falls back to
`contig_page_data.node_mem_map - contig_page_data.node_start_pfn`
(pointer arithmetic with descriptor stride, 64-bit), caches the result;
when `contig_page_data` is also absent the `KeyError` propagates. -/
def _page0 (p : Prog) (s : Session) : Except ResolveError Nat × Session :=
  match s.cachePage0 with
  | some v => (.ok v, s)
  | none =>
    match p.vmemmap with
    | some v => (.ok v, ⟨some v⟩)
    | none =>
      match p.contig with
      | some c =>
        let v := (((c.1 : Int) - (c.2 : Int) * (p.stride : Int)) % (U64 : Int)).toNat
        (.ok v, ⟨some v⟩)
      | none => (.error .metadataAbsent, s)

/-- The sequence of descriptor addresses `for_each_page` yields from base
`b`: one address per PFN in `[minLowPfn, maxPfn)`, in increasing PFN
order, at descriptor stride. Depends only on the base, the stride and the
PFN bounds — not on `mem` or `faulted`. -/
def pageAddrs (stride lo hi b : Nat) : List Nat :=
  (List.range (hi - lo)).map fun i => (b + (lo + i) * stride) % U64

/-- `for_each_page`: resolves `page0` via `_page0` and yields `page0 + i`
for `i` in `range(prog["min_low_pfn"], prog["max_pfn"])`. The generator is
embedded as the (finite) list of yielded addresses. -/
def for_each_page (p : Prog) (s : Session) : Except ResolveError (List Nat) × Session :=
  match _page0 p s with
  | (.error e, s₂) => (.error e, s₂)
  | (.ok b, s₂) => (.ok (pageAddrs p.stride p.minLowPfn p.maxPfn b), s₂)

/-- Dereferencing a yielded descriptor address: faults (returns `none`)
when the address is unmapped. Used only by callers of `for_each_page`;
the enumerator itself never reads. -/
def derefPage (p : Prog) (a : Nat) : Option Page :=
  if p.faulted a then none else some (p.mem a)

/-- A descriptor address is a valid head target when its own compound-head
word is untagged and the following descriptor's compound-head word, if
tagged, points back to it. `compound_head` is the identity on such
addresses. -/
def headTarget (p : Prog) (t : Nat) : Prop :=
  (p.mem t).compound_head % 2 = 0 ∧
  ((p.mem (t + p.stride)).compound_head % 2 = 1 →
    (p.mem (t + p.stride)).compound_head - 1 = t)

/-- Well-formed compound-page linkage: every tagged compound-head word in
target memory points to a valid head target. Holds for genuine kernel
compound pages (a head descriptor is never itself tagged, and a head's
first tail points back to the head). -/
def wellFormed (p : Prog) : Prop :=
  ∀ a : Nat, (p.mem a).compound_head % 2 = 1 →
    headTarget p ((p.mem a).compound_head - 1)

/-- A simple concrete session used by witnesses: 4096-byte pages,
64-byte descriptors, all descriptor words zero. -/
def witnessProg : Prog where
  mem := fun _ => ⟨0, 0, 0⟩
  faulted := fun _ => false
  stride := 64
  pageShift := 12
  pageSize := 4096
  directMappingOffset := 1024
  pgHead := some 4
  pgActive := some 1
  vmemmap := some 4096
  contig := none
  minLowPfn := 2
  maxPfn := 5

/-- A session holding a genuine order-3 compound page: the head descriptor
at address 0 has the `PG_head` flag (bit 4) set, its first tail at address
64 stores the tagged back-pointer `0 ||| 1 = 1` and the compound order 3.
Used by witnesses for the compound-page claims. -/
def headProg : Prog where
  mem := fun a => if a = 0 then ⟨16, 0, 0⟩ else if a = 64 then ⟨0, 1, 3⟩ else ⟨0, 0, 0⟩
  faulted := fun _ => false
  stride := 64
  pageShift := 12
  pageSize := 4096
  directMappingOffset := 1024
  pgHead := some 4
  pgActive := some 4
  vmemmap := some 4096
  contig := none
  minLowPfn := 0
  maxPfn := 0

/-- A descriptor with both the `PG_head` flag (bit 0 of `flags = 1`) and a
tagged compound-head word (`compound_head = 1`), while the next descriptor
is all zero (so it is not a fake head). On it `PageHead` and `PageTail`
are both true. -/
def bothProg : Prog where
  mem := fun a => if a = 0 then ⟨1, 1, 0⟩ else ⟨0, 0, 0⟩
  faulted := fun _ => false
  stride := 64
  pageShift := 12
  pageSize := 4096
  directMappingOffset := 0
  pgHead := some 0
  pgActive := none
  vmemmap := none
  contig := none
  minLowPfn := 0
  maxPfn := 0

/-- Arbitrary (not well-formed) target memory: the descriptor at address 0
has the tagged word 5, pointing at address 4, whose own word 11 is again
tagged. `compound_head` is not idempotent here. -/
def loopProg : Prog where
  mem := fun a => if a = 0 then ⟨0, 5, 0⟩ else if a = 4 then ⟨0, 11, 0⟩ else ⟨0, 0, 0⟩
  faulted := fun _ => false
  stride := 64
  pageShift := 12
  pageSize := 4096
  directMappingOffset := 0
  pgHead := some 0
  pgActive := none
  vmemmap := none
  contig := none
  minLowPfn := 0
  maxPfn := 0

/-- A target whose metadata has no `PG_head` bit (and no `PG_active` bit)
and whose descriptor at address 0 has a tagged compound-head word. -/
def noHeadProg : Prog where
  mem := fun a => if a = 0 then ⟨1, 1, 0⟩ else ⟨0, 0, 0⟩
  faulted := fun _ => false
  stride := 64
  pageShift := 12
  pageSize := 4096
  directMappingOffset := 0
  pgHead := none
  pgActive := none
  vmemmap := none
  contig := none
  minLowPfn := 0
  maxPfn := 0

/-- A target with neither `vmemmap` nor `contig_page_data` metadata (the
unsupported sparse layout). -/
def sparseProg : Prog where
  mem := fun _ => ⟨0, 0, 0⟩
  faulted := fun _ => false
  stride := 64
  pageShift := 12
  pageSize := 4096
  directMappingOffset := 0
  pgHead := none
  pgActive := none
  vmemmap := none
  contig := none
  minLowPfn := 0
  maxPfn := 0

/-- A flat-layout target: no `vmemmap`, but `contig_page_data` with
`node_mem_map = 1000` and `node_start_pfn = 2`. -/
def contigProg : Prog where
  mem := fun _ => ⟨0, 0, 0⟩
  faulted := fun _ => false
  stride := 64
  pageShift := 12
  pageSize := 4096
  directMappingOffset := 0
  pgHead := none
  pgActive := none
  vmemmap := none
  contig := some (1000, 2)
  minLowPfn := 0
  maxPfn := 0

theorem U64_eq : U64 = 18446744073709551616 := rfl

/-- C5: for every PFN in range (its physical address fits in 64 bits),
`PHYS_PFN (PFN_PHYS pfn) = pfn`, and for every 64-bit directly mapped
address aligned to the page granularity,
`virt_to_phys (phys_to_virt addr) = addr`. -/
theorem pfn_phys_virt_round_trip (p : Prog) (pfn addr : Nat)
    (hpfn : pfn * 2 ^ p.pageShift < U64)
    (haddr : addr < U64) (_halign : addr % 2 ^ p.pageShift = 0) :
    PHYS_PFN p (PFN_PHYS p pfn) = pfn ∧
    virt_to_phys p (phys_to_virt p addr) = addr := by
  constructor
  · have h2 : 0 < 2 ^ p.pageShift := Nat.pos_pow_of_pos _ (by decide)
    have hlt : pfn < U64 := lt_of_le_of_lt (Nat.le_mul_of_pos_right _ h2) hpfn
    unfold PFN_PHYS PHYS_PFN
    rw [Nat.mod_eq_of_lt hlt, Nat.shiftLeft_eq, Nat.mod_eq_of_lt hpfn,
      Nat.mod_eq_of_lt hpfn, Nat.shiftRight_eq_div_pow,
      Nat.mul_div_cancel _ h2]
  · simp only [phys_to_virt, virt_to_phys, U64_eq] at haddr ⊢
    push_cast
    omega

/-- Witness for C5 at `pageShift = 12`, `pfn = 0x100`, `addr = 0x2000`
(matching the spec scenario `pfn_to_phys(0x100) = 0x100000`). -/
theorem pfn_phys_virt_round_trip_witness :
    PHYS_PFN witnessProg (PFN_PHYS witnessProg 256) = 256 ∧
    virt_to_phys witnessProg (phys_to_virt witnessProg 8192) = 8192 :=
  pfn_phys_virt_round_trip witnessProg 256 8192 (by decide) (by decide) (by decide)

theorem lor_one_of_even (n : Nat) (h : n % 2 = 0) : n ||| 1 = n + 1 := by
  obtain ⟨k, rfl⟩ : ∃ k, n = 2 * k := ⟨n / 2, by omega⟩
  have h2 : 2 * k = Nat.bit false k := rfl
  have h1 : (1 : Nat) = Nat.bit true 0 := rfl
  rw [h2, h1, Nat.lor_bit]
  simp [Nat.bit]

/-- C1 (amended): for every descriptor that does not simultaneously carry
the head flag and a tagged compound-head word of its own, `PageHead` and
`PageTail` are never both true, so exactly one of standalone (neither),
head, tail holds. Over fully arbitrary words the claim fails: a
descriptor with both the head flag and a tagged compound-head word — a
state the kernel never produces — classifies as head and tail at once
(see `head_tail_both_true`). -/
theorem head_tail_exclusive (p : Prog) (page flag : Nat)
    (hpg : p.pgHead = some flag)
    (hnot : ¬(((p.mem page).flags &&& (1 <<< flag) != 0) = true ∧
      ((p.mem page).compound_head &&& 1 == 1) = true)) :
    ¬(PageHead p page = some true ∧ PageTail p page = some true) := by
  rintro ⟨hh, ht⟩
  simp only [PageHead, hpg, Option.some.injEq, Bool.and_eq_true,
    Bool.not_eq_true'] at hh
  obtain ⟨hA, hF⟩ := hh
  simp only [PageTail, hpg] at ht
  by_cases hB : ((p.mem page).compound_head &&& 1 == 1) = true
  · exact hnot ⟨hA, hB⟩
  · rw [if_neg hB, if_pos hA, Option.some.injEq] at ht
    rw [hF] at ht
    cases ht

/-- C1 counterexample: in `bothProg` the descriptor at address 0 carries
the head flag (bit 0) and a tagged compound-head word, and the following
descriptor does not make it a fake head, so `PageHead` and `PageTail`
are simultaneously true. -/
theorem head_tail_both_true :
    PageHead bothProg 0 = some true ∧ PageTail bothProg 0 = some true := by
  decide

theorem head_tail_exclusive_witness :
    ¬(PageHead headProg 0 = some true ∧ PageTail headProg 0 = some true) :=
  head_tail_exclusive headProg 0 4 rfl (by decide)

/-- C2: `_page_is_fake_head` reads only the compound-head word of the
descriptor one stride ahead (any two sessions with the same stride that
agree on that one word agree on the result); it returns true iff that
word is tagged and the word minus one differs from the descriptor
address; and when the next descriptor's word equals `address ||| 1`
(descriptor addresses are even, `struct page` being word-aligned), it is
false and `PageHead` is determined solely by the descriptor's own head
flag. -/
theorem page_is_fake_head_spec (p q : Prog) (page flag : Nat)
    (_hstride : p.stride = q.stride)
    (hword : (p.mem (page + p.stride)).compound_head
      = (q.mem (page + q.stride)).compound_head)
    (hpg : p.pgHead = some flag) (heven : page % 2 = 0) :
    (_page_is_fake_head p page = true ↔
      ((p.mem (page + p.stride)).compound_head &&& 1 = 1 ∧
        (p.mem (page + p.stride)).compound_head - 1 ≠ page)) ∧
    _page_is_fake_head p page = _page_is_fake_head q page ∧
    ((p.mem (page + p.stride)).compound_head = page ||| 1 →
      _page_is_fake_head p page = false ∧
      PageHead p page = some ((p.mem page).flags &&& (1 <<< flag) != 0)) := by
  refine ⟨?_, ?_, ?_⟩
  · simp [_page_is_fake_head, Bool.and_eq_true, beq_iff_eq, bne_iff_ne]
  · simp only [_page_is_fake_head]
    rw [← hword]
  · intro hch
    have hlor : page ||| 1 = page + 1 := lor_one_of_even page heven
    have heven1 : (page + 1) &&& 1 = 1 := by
      rw [Nat.and_one_is_mod]
      omega
    have hfake : _page_is_fake_head p page = false := by
      simp [_page_is_fake_head, hch, hlor, heven1]
    refine ⟨hfake, ?_⟩
    simp [PageHead, hpg, hfake]

theorem page_is_fake_head_spec_witness :
    _page_is_fake_head headProg 0 = false ∧ PageHead headProg 0 = some true := by
  have h := (page_is_fake_head_spec headProg headProg 0 4 rfl rfl rfl
    (by decide)).2.2 (by decide)
  refine ⟨h.1, ?_⟩
  rw [h.2]
  decide

/-- C3: `compound_head` returns `head - 1` when the descriptor's own
compound-head word is tagged; otherwise, when the descriptor carries the
head flag, it re-reads the next descriptor's compound-head word and
returns that word minus one when that word is tagged; in every other
case it returns the descriptor itself. -/
theorem compound_head_spec (p : Prog) (page flag : Nat)
    (hpg : p.pgHead = some flag) :
    ((p.mem page).compound_head &&& 1 = 1 →
      compound_head p page = some ((p.mem page).compound_head - 1)) ∧
    ((p.mem page).compound_head &&& 1 ≠ 1 →
      ((p.mem page).flags &&& (1 <<< flag) ≠ 0 →
        ((p.mem (page + p.stride)).compound_head &&& 1 = 1 →
          compound_head p page
            = some ((p.mem (page + p.stride)).compound_head - 1)) ∧
        ((p.mem (page + p.stride)).compound_head &&& 1 ≠ 1 →
          compound_head p page = some page)) ∧
      ((p.mem page).flags &&& (1 <<< flag) = 0 →
        compound_head p page = some page)) := by
  refine ⟨fun h1 => ?_, fun h1 => ⟨fun h2 => ⟨fun h3 => ?_, fun h3 => ?_⟩,
    fun h2 => ?_⟩⟩
  · rw [Nat.and_one_is_mod] at h1
    simp [compound_head, h1]
  · rw [Nat.and_one_is_mod] at h1 h3
    have hb2 : ((p.mem page).flags &&& (1 <<< flag) != 0) = true := by simp [h2]
    simp [compound_head, hpg, h1, h3, hb2]
  · rw [Nat.and_one_is_mod] at h1 h3
    have h1z : (p.mem page).compound_head % 2 = 0 := by omega
    have h3z : (p.mem (page + p.stride)).compound_head % 2 = 0 := by omega
    have hb2 : ((p.mem page).flags &&& (1 <<< flag) != 0) = true := by simp [h2]
    simp [compound_head, hpg, h1z, h3z, hb2]
  · rw [Nat.and_one_is_mod] at h1
    have h1z : (p.mem page).compound_head % 2 = 0 := by omega
    have hb2 : ((p.mem page).flags &&& (1 <<< flag) != 0) = false := by simp [h2]
    simp [compound_head, hpg, h1z, hb2]

theorem compound_head_spec_witness : compound_head headProg 64 = some 0 := by
  have h := (compound_head_spec headProg 64 4 rfl).1 (by decide)
  rw [h]
  decide

/-- `compound_head` fixes every valid head target. -/
theorem compound_head_headTarget (p : Prog) (flag t : Nat)
    (hpg : p.pgHead = some flag) (ht : headTarget p t) :
    compound_head p t = some t := by
  obtain ⟨h1, h2⟩ := ht
  by_cases hf : ((p.mem t).flags &&& (1 <<< flag) != 0) = true
  · by_cases hb2 : (p.mem (t + p.stride)).compound_head % 2 = 1
    · have hback := h2 hb2
      simp [compound_head, hpg, h1, hf, hb2, hback]
    · simp [compound_head, hpg, h1, hf, hb2]
  · rw [Bool.not_eq_true] at hf
    simp [compound_head, hpg, h1, hf]

/-- C4 (amended): with the `PG_head` bit resolvable, `compound_head` is
idempotent provided the compound-page linkage in target memory is well
formed: every tagged compound-head word points to a descriptor whose own
compound-head word is untagged and whose following descriptor's
compound-head word, if tagged, points back to it (true of genuine kernel
compound pages). Over fully arbitrary target-memory contents idempotence
fails (see `compound_head_not_idem`). -/
theorem compound_head_idem (p : Prog) (page flag : Nat)
    (hpg : p.pgHead = some flag) (hwf : wellFormed p) (h : Nat)
    (hh : compound_head p page = some h) :
    compound_head p h = some h := by
  simp only [compound_head, hpg] at hh
  by_cases hb1 : ((p.mem page).compound_head &&& 1 == 1) = true
  · rw [if_pos hb1, Option.some.injEq] at hh
    subst hh
    exact compound_head_headTarget p flag _ hpg (hwf page (by simpa using hb1))
  · rw [if_neg hb1] at hh
    by_cases hf : ((p.mem page).flags &&& (1 <<< flag) != 0) = true
    · rw [if_pos hf] at hh
      by_cases hb2 : ((p.mem (page + p.stride)).compound_head &&& 1 == 1) = true
      · rw [if_pos hb2, Option.some.injEq] at hh
        subst hh
        exact compound_head_headTarget p flag _ hpg
          (hwf (page + p.stride) (by simpa using hb2))
      · rw [if_neg hb2, Option.some.injEq] at hh
        subst hh
        simp only [compound_head, hpg]
        rw [if_neg hb1, if_pos hf, if_neg hb2]
    · rw [if_neg hf, Option.some.injEq] at hh
      subst hh
      simp only [compound_head, hpg]
      rw [if_neg hb1, if_neg hf]

/-- C4 counterexample: in `loopProg` (arbitrary memory contents) the
descriptor at address 0 resolves to address 4, whose own compound-head
word is again tagged and resolves elsewhere, so
`compound_head (compound_head 0) ≠ compound_head 0`. -/
theorem compound_head_not_idem :
    compound_head loopProg 0 = some 4 ∧ compound_head loopProg 4 ≠ some 4 := by
  decide

/-- The compound-page linkage of `headProg` is well formed. -/
theorem headProg_wellFormed : wellFormed headProg := by
  intro a ha
  by_cases h0 : a = 0
  · subst h0
    simp [headProg] at ha
  · by_cases h64 : a = 64
    · subst h64
      exact ⟨by decide, fun _ => by decide⟩
    · simp [headProg, h0, h64] at ha

theorem compound_head_idem_witness : compound_head headProg 0 = some 0 :=
  compound_head_idem headProg 64 4 rfl headProg_wellFormed 0 (by decide)

/-- C6: whenever `PageHead` is false, `compound_order` is 0 and
`compound_nr` is 1; `page_size` always equals the `PAGE_SIZE` constant
shifted left (as `unsigned long`) by `compound_order`; and a head
descriptor with compound-order field 3 and page size 4096 yields page
count 8 and byte size 32768. -/
theorem compound_order_nr_size (p : Prog) (page : Nat) :
    (PageHead p page = some false →
      compound_order p page = some 0 ∧ compound_nr p page = some 1) ∧
    page_size p page
      = (compound_order p page).map (fun o => (p.pageSize <<< o) % U64) ∧
    (PageHead p page = some true →
      (p.mem (page + p.stride)).compound_order = 3 → p.pageSize = 4096 →
      compound_nr p page = some 8 ∧ page_size p page = some 32768) := by
  refine ⟨fun hf => ?_, ?_, fun ht ho hps => ?_⟩
  · simp [compound_order, compound_nr, hf]
  · cases hco : compound_order p page <;> simp [page_size, hco]
  · have hco : compound_order p page = some (3 % 2 ^ 32) := by
      simp [compound_order, ht, ho]
    constructor
    · have hnr : compound_nr p page = some ((1 <<< 3) % U64) := by
        simp [compound_nr, ht, ho]
      rw [hnr]
      decide
    · have hsz : page_size p page = some ((4096 <<< (3 % 2 ^ 32)) % U64) := by
        simp [page_size, hco, hps]
      rw [hsz]
      decide

theorem compound_order_nr_size_witness :
    compound_nr headProg 0 = some 8 ∧ page_size headProg 0 = some 32768 :=
  (compound_order_nr_size headProg 0).2.2 (by decide) (by decide) rfl

/-- C7 (amended): `_page0` returns the session-cached base when present;
otherwise it tries `prog["vmemmap"]` and caches it; on Metadata-Unavailable
it falls back to `contig_page_data.node_mem_map - node_start_pfn`
(descriptor stride, 64-bit pointer arithmetic) and caches that; when
neither strategy applies it fails with the plain metadata-absence error
(the `KeyError` from the `contig_page_data` lookup) — not with a distinct
unsupported-memory-model error (see `page0_error_not_distinct`). -/
theorem page0_spec (p : Prog) (s : Session) :
    (∀ v, s.cachePage0 = some v → _page0 p s = (.ok v, s)) ∧
    (s.cachePage0 = none → ∀ v, p.vmemmap = some v →
      _page0 p s = (.ok v, ⟨some v⟩)) ∧
    (s.cachePage0 = none → p.vmemmap = none → ∀ m n, p.contig = some (m, n) →
      _page0 p s
        = (.ok ((((m : Int) - (n : Int) * (p.stride : Int)) % (U64 : Int)).toNat),
          ⟨some ((((m : Int) - (n : Int) * (p.stride : Int)) % (U64 : Int)).toNat)⟩)) ∧
    (s.cachePage0 = none → p.vmemmap = none → p.contig = none →
      _page0 p s = (.error .metadataAbsent, s)) := by
  refine ⟨fun v hv => ?_, fun hc v hv => ?_, fun hc hv m n hco => ?_,
    fun hc hv hco => ?_⟩
  all_goals simp [_page0, *]

/-- C7 counterexample: on a target with neither `vmemmap` nor
`contig_page_data` (the unsupported sparse layout), `_page0` fails with
the metadata-absence error, which is not the distinct
unsupported-memory-model error the claim postulates. -/
theorem page0_error_not_distinct :
    (_page0 sparseProg ⟨none⟩).1 = .error .metadataAbsent ∧
    ResolveError.metadataAbsent ≠ ResolveError.unsupportedMemoryModel :=
  ⟨rfl, by decide⟩

theorem page0_spec_witness :
    _page0 contigProg ⟨none⟩ = (.ok 872, ⟨some 872⟩) := by
  have h := (page0_spec contigProg ⟨none⟩).2.2.1 rfl rfl 1000 2 rfl
  exact h.trans rfl

/-- C8: the generated per-flag accessors (represented by `PageActive`)
never raise: they return `false` when the flag bit number is absent from
the target metadata (the `KeyError` is caught), and otherwise test bit
`flag_bit(name)` of the descriptor flags word. -/
theorem page_flag_accessor_spec (p : Prog) (page : Nat) :
    (p.pgActive = none → PageActive p page = false) ∧
    (∀ bit, p.pgActive = some bit →
      (PageActive p page = true ↔ ((p.mem page).flags >>> bit) &&& 1 ≠ 0)) := by
  refine ⟨fun h => by simp [PageActive, h], fun bit h => ?_⟩
  simp only [PageActive, h, bne_iff_ne, ne_eq]
  have e1 : (p.mem page).flags &&& (1 <<< bit)
      = ((p.mem page).flags.testBit bit).toNat * 2 ^ bit := by
    rw [Nat.shiftLeft_eq, one_mul, Nat.and_two_pow]
  have e2 : ((p.mem page).flags >>> bit) &&& 1 = (p.mem page).flags / 2 ^ bit % 2 := by
    rw [Nat.and_one_is_mod, Nat.shiftRight_eq_div_pow]
  have hq : 2 ^ bit ≠ 0 := (Nat.pos_pow_of_pos bit (by decide)).ne'
  rw [e1, e2, Nat.testBit_to_div_mod]
  rcases Nat.mod_two_eq_zero_or_one ((p.mem page).flags / 2 ^ bit) with hm | hm <;>
    simp [hm, hq]

theorem page_flag_accessor_spec_witness : PageActive headProg 0 = true := by
  have h := ((page_flag_accessor_spec headProg 0).2 4 rfl).mpr (by decide)
  exact h

/-- C9: `for_each_page` yields exactly one descriptor address per PFN in
the populated range `[min_low_pfn, max_pfn)`, in increasing PFN order
(position `i` holds PFN `min_low_pfn + i`), at descriptor stride from
the resolved base. The yielded sequence (`pageAddrs`) is a function of
the stride, the PFN bounds and the base only — target memory and fault
state are never consulted per item — so a `Fault` when the caller
dereferences one yielded descriptor does not terminate the sequence and
the remaining PFNs are still produced. -/
theorem for_each_page_spec (p : Prog) (s : Session) (b : Nat) (s₂ : Session)
    (h : _page0 p s = (.ok b, s₂)) :
    for_each_page p s = (.ok (pageAddrs p.stride p.minLowPfn p.maxPfn b), s₂) ∧
    (pageAddrs p.stride p.minLowPfn p.maxPfn b).length = p.maxPfn - p.minLowPfn ∧
    (∀ i, ∀ hi : i < (pageAddrs p.stride p.minLowPfn p.maxPfn b).length,
      (pageAddrs p.stride p.minLowPfn p.maxPfn b).get ⟨i, hi⟩
        = (b + (p.minLowPfn + i) * p.stride) % U64) ∧
    (∀ (m₂ : Nat → Page) (f₂ : Nat → Bool),
      for_each_page { p with mem := m₂, faulted := f₂ } s = for_each_page p s) := by
  refine ⟨?_, ?_, fun i hi => ?_, fun m₂ f₂ => rfl⟩
  · simp [for_each_page, h]
  · simp [pageAddrs]
  · simp [pageAddrs, List.get_eq_getElem]

theorem for_each_page_spec_witness :
    for_each_page witnessProg ⟨none⟩ = (.ok [4224, 4288, 4352], ⟨some 4096⟩) := by
  have h := (for_each_page_spec witnessProg ⟨none⟩ 4096 ⟨some 4096⟩ rfl).1
  exact h.trans rfl

/-- C10 (amended): when the `PG_head` bit is absent from the target
metadata, `PageCompound` and `PageHead` always fail with the
metadata-lookup error (`KeyError`, here `none`); `PageTail` and
`compound_head` fail the same way except when the descriptor's own
compound-head word is tagged, in which case they return `true`
(resp. the decoded head address) without consulting the flag; the
generated accessors (`PageActive`) instead return `false` for an absent
flag. -/
theorem pg_head_absent_spec (p : Prog) (page : Nat)
    (hpg : p.pgHead = none) :
    PageCompound p page = none ∧
    PageHead p page = none ∧
    ((p.mem page).compound_head % 2 = 0 →
      PageTail p page = none ∧ compound_head p page = none) ∧
    ((p.mem page).compound_head % 2 = 1 →
      PageTail p page = some true ∧
      compound_head p page = some ((p.mem page).compound_head - 1)) ∧
    (p.pgActive = none → PageActive p page = false) := by
  refine ⟨by simp [PageCompound, hpg], by simp [PageHead, hpg], fun h => ?_,
    fun h => ?_, fun h => by simp [PageActive, h]⟩
  · exact ⟨by simp [PageTail, hpg, h], by simp [compound_head, hpg, h]⟩
  · exact ⟨by simp [PageTail, h], by simp [compound_head, h]⟩

/-- C10 counterexample: with `PG_head` absent, `PageTail` and
`compound_head` do not raise on a descriptor whose own compound-head word
is tagged — they return normally. -/
theorem pg_head_absent_tail_no_error :
    noHeadProg.pgHead = none ∧ PageTail noHeadProg 0 = some true ∧
    compound_head noHeadProg 0 = some 0 := by
  decide

theorem pg_head_absent_spec_witness :
    PageCompound noHeadProg 8 = none ∧ PageTail noHeadProg 8 = none := by
  have h := pg_head_absent_spec noHeadProg 8 rfl
  exact ⟨h.1, (h.2.2.1 (by decide)).1⟩

end DrgnMM
